import Mathlib

/-!
Verification of the aisim2nerfstudio coordinate-transform and projection
pipeline.

Shallow embedding of the pose-export scripts
(`src/calculation_for_transformsfile.py`, `src/colorize_lidar.py`,
`src/combine_transforms.py`) over exact rationals (reals where trigonometry
appears).  Machine floats are modelled by `ℚ`; numpy arrays by Lean lists and
`Matrix (Fin n) (Fin n) ℚ`; fallible numpy/python operations by `Except`.
-/

namespace AiSim

/-- Error taxonomy of the design: `MalformedRecordError` names the failure of
`np.array(arr).reshape((4, 4), order='F')` when the flat array does not hold
exactly 16 elements (numpy raises `ValueError` there; the design document's
taxonomy calls this condition `MalformedRecordError`). -/
inductive ConvError where
  | MalformedRecordError
  deriving DecidableEq

/-- `reshape_rt_transform` (calculation_for_transformsfile.py, lines 169-175):
`np.array(rt_transform_array).reshape((4, 4), order='F')`.  Fortran order
fills column by column: column `j` of the result is the `j`-th group of four
consecutive elements of the flat array.  The reshape fails (numpy
`ValueError`, modelled as `MalformedRecordError`) unless the array has
exactly 16 elements. -/
def reshape_rt_transform (rt_transform_array : List ℚ) :
    Except ConvError (Matrix (Fin 4) (Fin 4) ℚ) :=
  if rt_transform_array.length = 16 then
    .ok (Matrix.of fun i j : Fin 4 =>
      ((rt_transform_array.drop (4 * j.val)).take 4).getD i.val 0)
  else
    .error .MalformedRecordError

theorem take_drop_getD (l : List ℚ) (n i : ℕ) (hi : i < 4) :
    ((l.drop n).take 4).getD i 0 = l.getD (n + i) 0 := by
  simp [List.getD_eq_getElem?_getD, List.getElem?_take, hi, List.getElem?_drop]

/-- C1: on a flat 16-element sequence, `reshape_rt_transform` succeeds and
returns the matrix filled in column-major (Fortran) order: entry `(i, j)` of
the result is element `i + 4 * j` of the flat input, so the first four
elements form the first column. -/
theorem reshape_rt_transform_column_major (l : List ℚ) (h : l.length = 16) :
    ∃ M : Matrix (Fin 4) (Fin 4) ℚ,
      reshape_rt_transform l = .ok M ∧
      ∀ i j : Fin 4, M i j = l.getD (i.val + 4 * j.val) 0 := by
  refine ⟨Matrix.of fun i j : Fin 4 => ((l.drop (4 * j.val)).take 4).getD i.val 0,
    ?_, ?_⟩
  · rw [reshape_rt_transform, if_pos h]
  · intro i j
    show ((l.drop (4 * j.val)).take 4).getD i.val 0 = _
    rw [take_drop_getD l _ _ i.isLt, Nat.add_comm]

/-- Witness for C1 at the concrete flat array `[0, 1, 2, ..., 15]`. -/
theorem reshape_rt_transform_column_major_witness :
    ((List.range 16).map (fun n => (n : ℚ))).length = 16 ∧
    ∃ M : Matrix (Fin 4) (Fin 4) ℚ,
      reshape_rt_transform ((List.range 16).map (fun n => (n : ℚ))) = .ok M ∧
      ∀ i j : Fin 4,
        M i j = ((List.range 16).map (fun n => (n : ℚ))).getD (i.val + 4 * j.val) 0 :=
  ⟨by decide,
   reshape_rt_transform_column_major ((List.range 16).map (fun n => (n : ℚ))) (by decide)⟩

/-- C8: on any flat sequence whose length is not 16 (e.g. 15 elements) the
loader fails with `MalformedRecordError` and produces no pose at all. -/
theorem reshape_rt_transform_malformed (l : List ℚ) (h : l.length ≠ 16) :
    reshape_rt_transform l = .error .MalformedRecordError := by
  rw [reshape_rt_transform, if_neg h]

/-- Witness for C8 at a concrete 15-element array. -/
theorem reshape_rt_transform_malformed_witness :
    (List.replicate 15 (0 : ℚ)).length ≠ 16 ∧
    reshape_rt_transform (List.replicate 15 (0 : ℚ)) = .error .MalformedRecordError :=
  ⟨by decide, reshape_rt_transform_malformed _ (by decide)⟩

/-! ## colorize_lidar.py — projector/colorizer -/

/-- Camera intrinsics pulled from the transforms manifest
(colorize_lidar.py, lines 63-66): `fl_x`, `fl_y`, `cx`, `cy`. -/
structure Intrinsics where
  fl_x : ℚ
  fl_y : ℚ
  c_x : ℚ
  c_y : ℚ

/-- A decoded image: dimensions (`img_h, img_w, _ = img.shape`, line 85) and a
pixel lookup `img[row, col]` returning RGB channel values in 0-255. -/
structure Img where
  width : ℕ
  height : ℕ
  pix : ℕ → ℕ → Fin 3 → ℚ

/-- The OpenGL→OpenCV correction matrix `fix_rot` of `get_camera_matrix`
(colorize_lidar.py, lines 37-42): diag(1, -1, -1, 1). -/
def fix_rot : Matrix (Fin 4) (Fin 4) ℚ :=
  !![1, 0, 0, 0; 0, -1, 0, 0; 0, 0, -1, 0; 0, 0, 0, 1]

/-- `np.linalg.inv` on a 4×4 rational matrix, computed as the adjugate scaled
by the inverse determinant (the exact-arithmetic counterpart of numpy's
matrix inverse). -/
def np_linalg_inv (A : Matrix (Fin 4) (Fin 4) ℚ) : Matrix (Fin 4) (Fin 4) ℚ :=
  A.det⁻¹ • A.adjugate

/-- `get_camera_matrix` (colorize_lidar.py, lines 22-46): invert the
camera-to-world pose and left-multiply the `fix_rot` convention correction:
`w2c_cv = fix_rot @ np.linalg.inv(c2w)`. -/
def get_camera_matrix (c2w : Matrix (Fin 4) (Fin 4) ℚ) : Matrix (Fin 4) (Fin 4) ℚ :=
  fix_rot * np_linalg_inv c2w

/-- Homogenize a 3D point: `np.hstack((points, np.ones(...)))`
(colorize_lidar.py, line 57). -/
def homog (p : Fin 3 → ℚ) : Fin 4 → ℚ := ![p 0, p 1, p 2, 1]

/-- Per-point camera-space coordinates: `pts_cam = (w2c @ points_hom.T).T`
(colorize_lidar.py, line 93). -/
def camPoint (w2c : Matrix (Fin 4) (Fin 4) ℚ) (p : Fin 3 → ℚ) : Fin 4 → ℚ :=
  w2c.mulVec (homog p)

/-- `u = (xyz[:, 0] * fl_x / Z) + cx` (colorize_lidar.py, line 105). -/
def uCoord (intr : Intrinsics) (xyz : Fin 4 → ℚ) : ℚ :=
  xyz 0 * intr.fl_x / xyz 2 + intr.c_x

/-- `v = (xyz[:, 1] * fl_y / Z) + cy` (colorize_lidar.py, line 106). -/
def vCoord (intr : Intrinsics) (xyz : Fin 4 → ℚ) : ℚ :=
  xyz 1 * intr.fl_y / xyz 2 + intr.c_y

/-- The combined per-point validity mask (colorize_lidar.py, lines 99-113):
`valid_z_mask = Z > 0.1`, `valid_u = (u >= 0) & (u < img_w - 1)`,
`valid_v = (v >= 0) & (v < img_h - 1)`,
`final_mask = valid_z_mask & valid_u & valid_v`. -/
abbrev validPoint (imgW imgH : ℕ) (xyz : Fin 4 → ℚ) (u v : ℚ) : Prop :=
  xyz 2 > 1/10 ∧
  (0 ≤ u ∧ u < (imgW : ℚ) - 1) ∧
  (0 ≤ v ∧ v < (imgH : ℚ) - 1)

/-- numpy's `astype(int)` on a float: truncation toward zero. -/
def pyTrunc (q : ℚ) : ℤ := if 0 ≤ q then ⌊q⌋ else -⌊-q⌋

/-- Effect of one frame on one point's color (colorize_lidar.py, lines
93-130): project the point, and if the final mask passes, overwrite the color
with `img[v_idx, u_idx] / 255`; otherwise leave the color unchanged. -/
def stepPointColor (w2c : Matrix (Fin 4) (Fin 4) ℚ) (intr : Intrinsics)
    (img : Img) (p : Fin 3 → ℚ) (old : Fin 3 → ℚ) : Fin 3 → ℚ :=
  let xyz := camPoint w2c p
  let u := uCoord intr xyz
  let v := vCoord intr xyz
  if validPoint img.width img.height xyz u v then
    fun ch => img.pix (pyTrunc v).toNat (pyTrunc u).toNat ch / 255
  else old

/-- One frame of the colorization loop: camera-to-world pose from the
manifest, plus the frame's image — `none` models `not os.path.exists` or
`cv2.imread` returning `None` (colorize_lidar.py, lines 77-83), both of which
`continue` to the next frame. -/
structure CamFrame where
  c2w : Matrix (Fin 4) (Fin 4) ℚ
  img : Option Img

/-- Process one frame of the loop body (colorize_lidar.py, lines 73-130):
a frame with no readable image leaves every color unchanged; otherwise every
point's color is updated through `stepPointColor`. -/
def processFrame (intr : Intrinsics) (pts : List (Fin 3 → ℚ))
    (colors : List (Fin 3 → ℚ)) (f : CamFrame) : List (Fin 3 → ℚ) :=
  match f.img with
  | none => colors
  | some img =>
      (pts.zip colors).map fun pc =>
        stepPointColor (get_camera_matrix f.c2w) intr img pc.1 pc.2

/-- The whole colorization pass over the sampled frame sequence
(colorize_lidar.py, main loop). -/
def processFrames (intr : Intrinsics) (pts : List (Fin 3 → ℚ))
    (frames : List CamFrame) (colors : List (Fin 3 → ℚ)) : List (Fin 3 → ℚ) :=
  frames.foldl (processFrame intr pts) colors

/-! ## calculation_for_transformsfile.py — pose composer axis convention -/

/-- Embed an index of the 3×3 rotation block into the 4×4 matrix. -/
def toF4 (i : Fin 3) : Fin 4 := ⟨i.val, by omega⟩

/-- The upper-left 3×3 rotation block `T_matrix[:3, :3]`
(calculation_for_transformsfile.py, line 290). -/
def rotBlock (T : Matrix (Fin 4) (Fin 4) ℚ) : Matrix (Fin 3) (Fin 3) ℚ :=
  Matrix.of fun i j => T (toF4 i) (toF4 j)

/-- `T_permutation` (calculation_for_transformsfile.py, lines 291-295): the
axis-convention matrix of the Pose Composer,
`[[0, 0, -1], [-1, 0, 0], [0, 1, 0]]`. -/
def T_permutation : Matrix (Fin 3) (Fin 3) ℚ :=
  !![0, 0, -1; -1, 0, 0; 0, 1, 0]

/-- `nerfstudio_conversion` (calculation_for_transformsfile.py, lines
288-304): start from zeros, set the rotation block to
`T_matrix[:3, :3] @ T_permutation`, pass the translation column through
unchanged, and set the homogeneous corner to 1. -/
def nerfstudio_conversion (T_matrix : Matrix (Fin 4) (Fin 4) ℚ) :
    Matrix (Fin 4) (Fin 4) ℚ :=
  Matrix.of fun i j =>
    if hi : i.val < 3 then
      if hj : j.val < 3 then
        (rotBlock T_matrix * T_permutation) ⟨i.val, hi⟩ ⟨j.val, hj⟩
      else T_matrix i 3
    else if j.val < 3 then 0 else 1

/-- C3: the Pose Composer's axis-convention matrix `T_permutation` is a signed
permutation (exactly one nonzero entry per row and per column, each of
magnitude 1); it realizes forward→−Z, left→−X, up→+Y (the camera axes −Z, −X
and +Y pull back through it to the sensor's forward +X, left +Y and up +Z
axes); `nerfstudio_conversion` right-multiplies exactly this matrix onto the
rotation block while passing the translation through; and applying it then
its inverse is the identity on every 3×3 block `R`. -/
theorem axis_convention_signed_permutation :
    (∀ i : Fin 3, ∃! j : Fin 3, T_permutation i j ≠ 0) ∧
    (∀ j : Fin 3, ∃! i : Fin 3, T_permutation i j ≠ 0) ∧
    (∀ i j : Fin 3, T_permutation i j = 0 ∨ |T_permutation i j| = 1) ∧
    T_permutation.mulVec ![0, 0, -1] = ![1, 0, 0] ∧
    T_permutation.mulVec ![-1, 0, 0] = ![0, 1, 0] ∧
    T_permutation.mulVec ![0, 1, 0] = ![0, 0, 1] ∧
    (∀ T : Matrix (Fin 4) (Fin 4) ℚ,
      rotBlock (nerfstudio_conversion T) = rotBlock T * T_permutation ∧
      ∀ i : Fin 3, nerfstudio_conversion T (toF4 i) 3 = T (toF4 i) 3) ∧
    ∀ R : Matrix (Fin 3) (Fin 3) ℚ, R * T_permutation * T_permutation⁻¹ = R := by
  have htr : T_permutation.transpose = !![0, -1, 0; 0, 0, 1; -1, 0, 0] := by
    ext i j
    fin_cases i <;> fin_cases j <;> rfl
  have hone : (1 : Matrix (Fin 3) (Fin 3) ℚ) = !![1, 0, 0; 0, 1, 0; 0, 0, 1] := by
    ext i j
    fin_cases i <;> fin_cases j <;> rfl
  have hPT : T_permutation * T_permutation.transpose = 1 := by
    rw [htr, hone]
    ext i j
    fin_cases i <;> fin_cases j <;>
      norm_num [T_permutation, Matrix.mul_apply, Fin.sum_univ_three,
        Matrix.vecHead, Matrix.vecTail, Function.comp]
  have hinv : T_permutation⁻¹ = T_permutation.transpose := Matrix.inv_eq_right_inv hPT
  have hentry : ∀ i j : Fin 3, T_permutation i j =
      (!![0, 0, -1; -1, 0, 0; 0, 1, 0] : Matrix (Fin 3) (Fin 3) ℚ) i j :=
    fun _ _ => rfl
  refine ⟨?_, ?_, ?_, ?_, ?_, ?_, ?_, ?_⟩
  · intro i
    fin_cases i
    · refine ⟨2, by norm_num [T_permutation], fun j hj => ?_⟩
      fin_cases j <;> first | rfl | (exfalso; apply hj; norm_num [T_permutation])
    · refine ⟨0, by norm_num [T_permutation], fun j hj => ?_⟩
      fin_cases j <;> first | rfl | (exfalso; apply hj; norm_num [T_permutation])
    · refine ⟨1, by norm_num [T_permutation], fun j hj => ?_⟩
      fin_cases j <;> first | rfl | (exfalso; apply hj; norm_num [T_permutation])
  · intro j
    fin_cases j
    · refine ⟨1, by norm_num [T_permutation], fun i hi => ?_⟩
      fin_cases i <;> first | rfl | (exfalso; apply hi; norm_num [T_permutation])
    · refine ⟨2, by norm_num [T_permutation], fun i hi => ?_⟩
      fin_cases i <;> first | rfl | (exfalso; apply hi; norm_num [T_permutation])
    · refine ⟨0, by norm_num [T_permutation], fun i hi => ?_⟩
      fin_cases i <;> first | rfl | (exfalso; apply hi; norm_num [T_permutation])
  · intro i j
    fin_cases i <;> fin_cases j <;> norm_num [T_permutation]
  · funext k
    fin_cases k <;>
      norm_num [T_permutation, Matrix.mulVec, Matrix.dotProduct, Fin.sum_univ_three]
  · funext k
    fin_cases k <;>
      norm_num [T_permutation, Matrix.mulVec, Matrix.dotProduct, Fin.sum_univ_three]
  · funext k
    fin_cases k <;>
      norm_num [T_permutation, Matrix.mulVec, Matrix.dotProduct, Fin.sum_univ_three]
  · intro T
    have h3 : ¬ ((3 : Fin 4).val < 3) := by decide
    constructor
    · ext i j
      simp [rotBlock, nerfstudio_conversion, toF4, i.isLt, j.isLt]
    · intro i
      simp [nerfstudio_conversion, toF4, i.isLt, h3]
  · intro R
    rw [hinv, Matrix.mul_assoc, hPT, Matrix.mul_one]

/-! ## calculation_for_transformsfile.py — rotation/pose builder

Trigonometry forces these definitions onto `ℝ` (hence `noncomputable`); the
claims about them are settled symbolically, with no evaluation needed. -/

/-- `Rz` (calculation_for_transformsfile.py, lines 115-119). -/
noncomputable def Rz_mat (z : ℝ) : Matrix (Fin 3) (Fin 3) ℝ :=
  !![Real.cos z, -Real.sin z, 0;
     Real.sin z, Real.cos z, 0;
     0, 0, 1]

/-- `Ry` (calculation_for_transformsfile.py, lines 123-127). -/
noncomputable def Ry_mat (y : ℝ) : Matrix (Fin 3) (Fin 3) ℝ :=
  !![Real.cos y, 0, Real.sin y;
     0, 1, 0;
     -Real.sin y, 0, Real.cos y]

/-- `Rx` (calculation_for_transformsfile.py, lines 131-135). -/
noncomputable def Rx_mat (x : ℝ) : Matrix (Fin 3) (Fin 3) ℝ :=
  !![1, 0, 0;
     0, Real.cos x, -Real.sin x;
     0, Real.sin x, Real.cos x]

/-- `euler_zyx_to_matrix` (calculation_for_transformsfile.py, lines 102-145):
`R = Rz @ Ry @ Rx`, embedded in the upper-left 3×3 block of a 4×4 identity. -/
noncomputable def euler_zyx_to_matrix (yaw_rad pitch_rad roll_rad : ℝ) :
    Matrix (Fin 4) (Fin 4) ℝ :=
  let R := Rz_mat yaw_rad * Ry_mat pitch_rad * Rx_mat roll_rad
  !![R 0 0, R 0 1, R 0 2, 0;
     R 1 0, R 1 1, R 1 2, 0;
     R 2 0, R 2 1, R 2 2, 0;
     0, 0, 0, 1]

/-- Python's `math.radians`: degrees to radians. -/
noncomputable def radians (deg : ℝ) : ℝ := deg * (Real.pi / 180)

/-- `calculate_pom_deg` (calculation_for_transformsfile.py, lines 147-167):
convert the angles to radians, build the rotation with
`euler_zyx_to_matrix`, then overwrite the first three entries of the last
column with the position (`pom[:3, 3] = position`). -/
noncomputable def calculate_pom_deg (position : Fin 3 → ℝ)
    (yaw_deg pitch_deg roll_deg : ℝ) : Matrix (Fin 4) (Fin 4) ℝ :=
  let pom := euler_zyx_to_matrix (radians yaw_deg) (radians pitch_deg)
    (radians roll_deg)
  Matrix.of fun i j =>
    if h : j = 3 ∧ i.val < 3 then position ⟨i.val, h.2⟩ else pom i j

/-- C6: at yaw = pitch = roll = 0 degrees, `calculate_pom_deg` returns the
matrix whose rotation block is the identity, whose last column holds the
given position, and whose bottom row is [0, 0, 0, 1]. -/
theorem calculate_pom_deg_zero_angles (position : Fin 3 → ℝ) :
    calculate_pom_deg position 0 0 0 =
      !![1, 0, 0, position 0;
         0, 1, 0, position 1;
         0, 0, 1, position 2;
         0, 0, 0, 1] := by
  have h0 : radians 0 = 0 := by simp [radians]
  have hz : Rz_mat 0 = !![1, 0, 0; 0, 1, 0; 0, 0, 1] := by
    ext i j
    fin_cases i <;> fin_cases j <;> simp [Rz_mat]
  have hy : Ry_mat 0 = !![1, 0, 0; 0, 1, 0; 0, 0, 1] := by
    ext i j
    fin_cases i <;> fin_cases j <;> simp [Ry_mat]
  have hx : Rx_mat 0 = !![1, 0, 0; 0, 1, 0; 0, 0, 1] := by
    ext i j
    fin_cases i <;> fin_cases j <;> simp [Rx_mat]
  have hR : Rz_mat 0 * Ry_mat 0 * Rx_mat 0 =
      !![1, 0, 0; 0, 1, 0; 0, 0, 1] := by
    rw [hz, hy, hx]
    ext i j
    fin_cases i <;> fin_cases j <;>
      norm_num [Matrix.mul_apply, Fin.sum_univ_three,
        Matrix.vecHead, Matrix.vecTail, Function.comp]
  have h34 : ¬ ((3 : Fin 4).val < 3) := by decide
  ext i j
  fin_cases i <;> fin_cases j <;>
    simp [calculate_pom_deg, euler_zyx_to_matrix, h0, hR, h34,
      Matrix.vecHead, Matrix.vecTail, Function.comp]

/-- The neutral gray sentinel color: `colors = np.full(points.shape, 0.5)`
(colorize_lidar.py, line 54). -/
def grayColor : Fin 3 → ℚ := fun _ => 1/2

/-- The intrinsics of the end-to-end scenario: fx = fy = 500, cx = cy = 0. -/
def intr500 : Intrinsics := ⟨500, 500, 0, 0⟩

/-- A concrete 100×100 test image with constant pixel value 17. -/
def testImg : Img := ⟨100, 100, fun _ _ _ => 17⟩

theorem get_camera_matrix_one : get_camera_matrix 1 = fix_rot := by
  rw [get_camera_matrix, np_linalg_inv]
  simp [Matrix.det_one, Matrix.adjugate_one]

/-- C2: with identity camera pose, intrinsics fx = fy = 500, cx = cy = 0 and a
100×100 image, the world point (0, 0, -5) lands at camera-space (0, 0, 5)
(depth 5 in front of the camera), projects to pixel (u, v) = (0, 0), passes
the depth and bounds filters, and its color is overwritten with the color
sampled at pixel (0, 0) of the frame's image. -/
theorem center_point_colored (img : Img) (hw : img.width = 100)
    (hh : img.height = 100) (old : Fin 3 → ℚ) :
    camPoint (get_camera_matrix 1) ![0, 0, -5] = ![0, 0, 5, 1] ∧
    uCoord intr500 (camPoint (get_camera_matrix 1) ![0, 0, -5]) = 0 ∧
    vCoord intr500 (camPoint (get_camera_matrix 1) ![0, 0, -5]) = 0 ∧
    validPoint img.width img.height (camPoint (get_camera_matrix 1) ![0, 0, -5])
      (uCoord intr500 (camPoint (get_camera_matrix 1) ![0, 0, -5]))
      (vCoord intr500 (camPoint (get_camera_matrix 1) ![0, 0, -5])) ∧
    stepPointColor (get_camera_matrix 1) intr500 img ![0, 0, -5] old =
      fun ch => img.pix 0 0 ch / 255 := by
  have h1 : camPoint (get_camera_matrix 1) ![0, 0, -5] = ![0, 0, 5, 1] := by
    rw [get_camera_matrix_one]
    funext i
    fin_cases i <;>
      simp [camPoint, Matrix.mulVec, Matrix.dotProduct, Fin.sum_univ_four,
        fix_rot, homog]
  have h2 : uCoord intr500 (![0, 0, 5, 1] : Fin 4 → ℚ) = 0 := by
    norm_num [uCoord, intr500]
  have h3 : vCoord intr500 (![0, 0, 5, 1] : Fin 4 → ℚ) = 0 := by
    norm_num [vCoord, intr500]
  have h4 : validPoint 100 100 (![0, 0, 5, 1] : Fin 4 → ℚ) 0 0 := by
    refine ⟨?_, ⟨?_, ?_⟩, ?_, ?_⟩ <;> norm_num
  refine ⟨h1, by rw [h1]; exact h2, by rw [h1]; exact h3, ?_, ?_⟩
  · rw [h1, hw, hh, h2, h3]; exact h4
  · show (if validPoint img.width img.height (camPoint (get_camera_matrix 1) ![0, 0, -5])
        (uCoord intr500 (camPoint (get_camera_matrix 1) ![0, 0, -5]))
        (vCoord intr500 (camPoint (get_camera_matrix 1) ![0, 0, -5])) then
        fun ch => img.pix
          (pyTrunc (vCoord intr500 (camPoint (get_camera_matrix 1) ![0, 0, -5]))).toNat
          (pyTrunc (uCoord intr500 (camPoint (get_camera_matrix 1) ![0, 0, -5]))).toNat
          ch / 255
      else old) = fun ch => img.pix 0 0 ch / 255
    rw [h1, h2, h3, hw, hh, if_pos h4]
    norm_num [pyTrunc]

/-- Witness for C2 at the concrete test image. -/
theorem center_point_colored_witness :
    camPoint (get_camera_matrix 1) ![0, 0, -5] = ![0, 0, 5, 1] ∧
    uCoord intr500 (camPoint (get_camera_matrix 1) ![0, 0, -5]) = 0 ∧
    vCoord intr500 (camPoint (get_camera_matrix 1) ![0, 0, -5]) = 0 ∧
    validPoint testImg.width testImg.height
      (camPoint (get_camera_matrix 1) ![0, 0, -5])
      (uCoord intr500 (camPoint (get_camera_matrix 1) ![0, 0, -5]))
      (vCoord intr500 (camPoint (get_camera_matrix 1) ![0, 0, -5])) ∧
    stepPointColor (get_camera_matrix 1) intr500 testImg ![0, 0, -5] grayColor =
      fun ch => testImg.pix 0 0 ch / 255 :=
  center_point_colored testImg rfl rfl grayColor

/-- C4: whenever the validity mask passes, the truncated sampling indices lie
in `[0, width) × [0, height)` (so the image lookup is in range), and a point
whose projected `u` equals `width - 1` never passes the mask. -/
theorem sample_indices_in_bounds (w h : ℕ) (xyz : Fin 4 → ℚ) (u v : ℚ) :
    (validPoint w h xyz u v →
      0 ≤ pyTrunc u ∧ (pyTrunc u).toNat < w ∧
      0 ≤ pyTrunc v ∧ (pyTrunc v).toNat < h) ∧
    ¬ validPoint w h xyz ((w : ℚ) - 1) v := by
  constructor
  · rintro ⟨-, ⟨hu0, hu1⟩, hv0, hv1⟩
    have hu2 : pyTrunc u = ⌊u⌋ := if_pos hu0
    have hv2 : pyTrunc v = ⌊v⌋ := if_pos hv0
    have hfu : (0 : ℤ) ≤ ⌊u⌋ := Int.floor_nonneg.2 hu0
    have hfv : (0 : ℤ) ≤ ⌊v⌋ := Int.floor_nonneg.2 hv0
    have hwu : ⌊u⌋ < (w : ℤ) := by rw [Int.floor_lt]; push_cast; linarith
    have hwv : ⌊v⌋ < (h : ℤ) := by rw [Int.floor_lt]; push_cast; linarith
    rw [hu2, hv2]
    exact ⟨hfu, by omega, hfv, by omega⟩
  · rintro ⟨-, ⟨-, hlt⟩, -⟩
    exact lt_irrefl _ hlt

/-- Witness for C4 at a concrete in-frustum projection (u = 3, v = 4 on a
100×100 image, depth 5). -/
theorem sample_indices_in_bounds_witness :
    0 ≤ pyTrunc (3 : ℚ) ∧ (pyTrunc (3 : ℚ)).toNat < 100 ∧
    0 ≤ pyTrunc (4 : ℚ) ∧ (pyTrunc (4 : ℚ)).toNat < 100 :=
  (sample_indices_in_bounds 100 100 ![0, 0, 5, 1] 3 4).1
    (by refine ⟨?_, ⟨?_, ?_⟩, ?_, ?_⟩ <;> norm_num)

/-- C5: a point whose camera-space depth Z is at most 0.1 never has its color
updated by the frame, whatever its projected pixel coordinates are. -/
theorem shallow_depth_skipped (w2c : Matrix (Fin 4) (Fin 4) ℚ)
    (intr : Intrinsics) (img : Img) (p old : Fin 3 → ℚ)
    (h : camPoint w2c p 2 ≤ 1/10) :
    stepPointColor w2c intr img p old = old := by
  have hv : ¬ validPoint img.width img.height (camPoint w2c p)
      (uCoord intr (camPoint w2c p)) (vCoord intr (camPoint w2c p)) :=
    fun hc => absurd hc.1 (not_lt.2 h)
  simp only [stepPointColor]
  exact if_neg hv

/-- Witness for C5: the world origin sits at depth 0 for the identity
world-to-camera matrix, so its color stays gray. -/
theorem shallow_depth_skipped_witness :
    camPoint 1 ![0, 0, 0] 2 ≤ 1/10 ∧
    stepPointColor 1 intr500 testImg ![0, 0, 0] grayColor = grayColor := by
  have hz : camPoint 1 ![0, 0, 0] 2 ≤ 1/10 := by
    simp [camPoint, Matrix.mulVec, Matrix.dotProduct, Fin.sum_univ_four, homog,
      Matrix.one_apply]
  exact ⟨hz, shallow_depth_skipped 1 intr500 testImg ![0, 0, 0] grayColor hz⟩

/-- C9: a frame whose image is missing or unreadable is skipped — the
colorization pass over the frame list produces exactly the colors produced by
the pass without that frame, so the batch continues and is never aborted. -/
theorem missing_image_frame_skipped (intr : Intrinsics)
    (pts colors : List (Fin 3 → ℚ)) (fs1 : List CamFrame) (f : CamFrame)
    (fs2 : List CamFrame) (h : f.img = none) :
    processFrames intr pts (fs1 ++ f :: fs2) colors =
      processFrames intr pts (fs1 ++ fs2) colors := by
  simp [processFrames, List.foldl_append, processFrame, h]

/-- Witness for C9 at a one-frame batch whose single frame has no image. -/
theorem missing_image_frame_skipped_witness :
    (⟨1, none⟩ : CamFrame).img = none ∧
    processFrames intr500 [![1, 2, 3]] ([] ++ (⟨1, none⟩ : CamFrame) :: [])
        [grayColor] =
      processFrames intr500 [![1, 2, 3]] ([] ++ []) [grayColor] :=
  ⟨rfl, missing_image_frame_skipped intr500 [![1, 2, 3]] [grayColor] [] ⟨1, none⟩ [] rfl⟩

/-! ## combine_transforms.py — manifest merge and re-index -/

/-- One manifest frame entry for the merge step: `colmap_im_id` is the field
the re-index loop rewrites; everything else in the frame dictionary
(paths, pose) is carried opaquely in `payload`. -/
structure ManifestFrame (α : Type) where
  payload : α
  colmap_im_id : ℤ

/-- The re-index loop of combine_transforms.py (lines 63-66):
`for i, frame in enumerate(master_data['frames']): frame['colmap_im_id'] = i`. -/
def reassign_ids {α : Type} (frames : List (ManifestFrame α)) :
    List (ManifestFrame α) :=
  frames.enum.map fun p => { p.2 with colmap_im_id := (p.1 : ℤ) }

/-- C7: concatenating a 3-frame manifest with a 2-frame manifest and
reassigning ids yields frame ids exactly [0, 1, 2, 3, 4], with the frames'
own data kept in the original relative order of each source manifest. -/
theorem reassign_ids_dense {α : Type} (l1 l2 : List (ManifestFrame α))
    (h1 : l1.length = 3) (h2 : l2.length = 2) :
    (reassign_ids (l1 ++ l2)).map (fun f => f.colmap_im_id) = [0, 1, 2, 3, 4] ∧
    (reassign_ids (l1 ++ l2)).map (fun f => f.payload) =
      l1.map (fun f => f.payload) ++ l2.map (fun f => f.payload) := by
  obtain ⟨a, b, c, rfl⟩ := List.length_eq_three.1 h1
  obtain ⟨d, e, rfl⟩ := List.length_eq_two.1 h2
  constructor <;> simp [reassign_ids, List.enum]

/-- Witness for C7 at two concrete manifests with colliding original ids. -/
theorem reassign_ids_dense_witness :
    (reassign_ids ([⟨10, 0⟩, ⟨11, 1⟩, ⟨12, 2⟩] ++ [⟨20, 0⟩, ⟨21, 1⟩] :
        List (ManifestFrame ℕ))).map (fun f => f.colmap_im_id) =
      [0, 1, 2, 3, 4] ∧
    (reassign_ids ([⟨10, 0⟩, ⟨11, 1⟩, ⟨12, 2⟩] ++ [⟨20, 0⟩, ⟨21, 1⟩] :
        List (ManifestFrame ℕ))).map (fun f => f.payload) =
      [(10 : ℕ), 11, 12].map id ++ [(20 : ℕ), 21].map id := by
  have h := reassign_ids_dense
    ([⟨10, 0⟩, ⟨11, 1⟩, ⟨12, 2⟩] : List (ManifestFrame ℕ))
    ([⟨20, 0⟩, ⟨21, 1⟩] : List (ManifestFrame ℕ)) rfl rfl
  simpa using h

/-! ## calculation_for_transformsfile.py — main loop frame-id extraction

The loop (lines 348-361) derives `id_str` from each record's filename stem
and then runs `int(id_str)`, which raises `ValueError` on an unparsable
string; the exception is uncaught, so the whole batch aborts and no manifest
file is written. -/

/-- Python `ValueError`, as raised by `int()` on an unparsable string. -/
inductive PyError where
  | ValueError
  deriving DecidableEq

/-- Fueled core of Python `str.replace`: replaces non-overlapping occurrences
of `pat` left to right.  One unit of fuel is spent per character examined, so
fuel `s.length` always suffices. -/
def pyReplaceAux (pat repl : List Char) : ℕ → List Char → List Char
  | 0, s => s
  | _, [] => []
  | fuel + 1, c :: rest =>
    if pat.isPrefixOf (c :: rest) then
      repl ++ pyReplaceAux pat repl fuel (rest.drop (pat.length - 1))
    else
      c :: pyReplaceAux pat repl fuel rest

/-- Python `s.replace(pat, repl)` for a nonempty pattern (the script only ever
passes the fixed 15-character marker, so the empty-pattern case of Python's
`replace` is not modelled: we return `s` unchanged there). -/
def pyReplace (pat repl s : List Char) : List Char :=
  if pat.isEmpty then s else pyReplaceAux pat repl s.length s

/-- The fixed marker `"vehicle_sensor_"` of the main loop (line 350). -/
def vehicleSensorPat : List Char := "vehicle_sensor_".data

/-- `id_str` (lines 349-354): if the stem starts with the marker, strip every
occurrence of it via `stem.replace("vehicle_sensor_", "")`; otherwise fall
back to the string `"N/A"`. -/
def idStr (stem : List Char) : List Char :=
  if vehicleSensorPat.isPrefixOf stem then pyReplace vehicleSensorPat [] stem
  else "N/A".data

/-- Python's ASCII whitespace (stripped by `int()` before parsing). -/
def isPyWs (c : Char) : Bool :=
  c = ' ' || c = '\t' || c = '\n' || c = '\r' || c = '\x0b' || c = '\x0c'

/-- Strip leading and trailing whitespace. -/
def trimWs (s : List Char) : List Char :=
  ((s.dropWhile isPyWs).reverse.dropWhile isPyWs).reverse

/-- Digits of an integer literal after its first digit: Python allows single
underscores strictly between digits. -/
def digitsAfter : List Char → Option (List ℕ)
  | [] => some []
  | ['_'] => none
  | '_' :: c :: cs =>
    if c.isDigit then (digitsAfter cs).map (fun ds => (c.toNat - 48) :: ds)
    else none
  | c :: cs =>
    if c.isDigit then (digitsAfter cs).map (fun ds => (c.toNat - 48) :: ds)
    else none

/-- Decimal value of a digit list. -/
def digitsVal (ds : List ℕ) : ℕ := ds.foldl (fun a d => 10 * a + d) 0

/-- An unsigned Python integer literal: one digit followed by digits with
optional single underscores between them. -/
def pyIntDigits (s : List Char) : Option ℕ :=
  match s with
  | [] => none
  | c :: cs =>
    if c.isDigit then
      (digitsAfter cs).map (fun ds => digitsVal ((c.toNat - 48) :: ds))
    else none

/-- Python `int(str)`: strip surrounding whitespace, allow one optional sign,
then parse a digit run; `none` models the raised `ValueError`.  (Restricted
to ASCII digits and whitespace, which covers every string the script can
build.) -/
def pyInt (s : List Char) : Option ℤ :=
  match trimWs s with
  | '+' :: rest => (pyIntDigits rest).map fun n => (n : ℤ)
  | '-' :: rest => (pyIntDigits rest).map fun n => -(n : ℤ)
  | t => (pyIntDigits t).map fun n => (n : ℤ)

/-- `int(id_str)` for one record (line 361): `ValueError` when the id string
does not parse. -/
def frameId (stem : List Char) : Except PyError ℤ :=
  match pyInt (idStr stem) with
  | some n => .ok n
  | none => .error .ValueError

/-- The frame-id side of the export loop (lines 348-362): process the stems
in order, aborting at the first record whose id fails to convert — the
uncaught `ValueError` ends the batch, so no manifest is produced. -/
def exportFrameIds : List (List Char) → Except PyError (List ℤ)
  | [] => .ok []
  | stem :: rest =>
    match frameId stem with
    | .error e => .error e
    | .ok n =>
      match exportFrameIds rest with
      | .error e => .error e
      | .ok ns => .ok (n :: ns)

/-- The claim's own well-formedness condition, following its words: the stem
starts with `"vehicle_sensor_"` followed by a decimal integer (a nonempty
digit run).  Stated from the claim for comparison against what the code
does. -/
def stemWellFormedPerClaim (stem : List Char) : Bool :=
  vehicleSensorPat.isPrefixOf stem &&
    (let rest := stem.drop vehicleSensorPat.length
     !rest.isEmpty && rest.all Char.isDigit)

/-- C10 counterexample: the stem `"vehicle_sensor_vehicle_sensor_7"` does not
start with the marker followed by a decimal integer, yet the export does not
abort: `str.replace` removes **every** occurrence of the marker, leaving
`"7"`, so the batch succeeds and emits frame id 7. -/
theorem export_stem_claim_counterexample :
    stemWellFormedPerClaim "vehicle_sensor_vehicle_sensor_7".data = false ∧
    exportFrameIds ["vehicle_sensor_vehicle_sensor_7".data] = .ok [7] := by
  constructor <;> rfl

/-- C10 as amended: if any record's id string — the stem with every
occurrence of `"vehicle_sensor_"` removed when the stem starts with that
marker, and `"N/A"` otherwise — fails Python integer conversion, the whole
batch aborts with the uncaught `ValueError` and no frame-id list (hence no
manifest) is produced. -/
theorem export_aborts_on_unparsable_id (stems : List (List Char))
    (s : List Char) (hmem : s ∈ stems) (hbad : pyInt (idStr s) = none) :
    ∃ e, exportFrameIds stems = .error e ∧
      ∀ ids, exportFrameIds stems ≠ .ok ids := by
  induction stems with
  | nil => exact absurd hmem (List.not_mem_nil s)
  | cons t ts ih =>
    rcases hmt : frameId t with e | n
    · exact ⟨e, by simp [exportFrameIds, hmt], by simp [exportFrameIds, hmt]⟩
    · rcases List.mem_cons.1 hmem with rfl | hmem2
      · rw [frameId, hbad] at hmt
        cases hmt
      · obtain ⟨e, he, -⟩ := ih hmem2
        exact ⟨e, by simp [exportFrameIds, hmt, he],
          by simp [exportFrameIds, hmt, he]⟩

/-- Witness for the amended C10 at the stem `"hello"`, whose id string falls
back to `"N/A"` and fails integer conversion. -/
theorem export_aborts_on_unparsable_id_witness :
    ∃ e, exportFrameIds ["hello".data] = .error e ∧
      ∀ ids, exportFrameIds ["hello".data] ≠ .ok ids :=
  export_aborts_on_unparsable_id ["hello".data] "hello".data
    (List.mem_singleton.2 rfl) (by rfl)

end AiSim
